import Mathlib

/-
  Shallow embedding of the Nomad service scheduler
  (src/scheduler/service_sched.go).

  The file models the data the scheduler reads (jobs, allocations, nodes)
  and the three handlers `handleJobRegister`, `evictJobAllocs` and
  `handleNodeUpdate` together with the dispatcher `Process`.

  External collaborators are modelled as data:
   - the state snapshot is a structure of read functions;
   - the planner is a finite list of responses, one consumed per
     `SubmitPlan` call (the `outOfResponses` outcome marks the point at
     which the modelled planner trace ends);
   - the iterator stack's node selection (whose iterator code lives
     outside this repository) is an oracle function `SelectFn` receiving
     exactly the parameters the source feeds into the iterators.

  Helper functions of the repository that are referenced by
  service_sched.go but whose sources are not part of this repository
  (materializeTaskGroups, indexAllocs, diffAllocs, addEvictsToPlan,
  MakePlan, AppendEvict, AppendAlloc) are modelled from the spec; each
  such definition carries a doc comment saying so.
-/

namespace NomadSched

/-- Aggregated resource request. Modelled from the spec: each Task has a
resource requirement and group totals are obtained by summing over tasks
(structs.Resources with Add). -/
structure Resources where
  cpu : Nat
  memoryMB : Nat
  diskMB : Nat
  iops : Nat
deriving DecidableEq

/-- Sum of two resource requests, mirroring structs.Resources.Add. -/
def addRes (a b : Resources) : Resources :=
  { cpu := a.cpu + b.cpu
  , memoryMB := a.memoryMB + b.memoryMB
  , diskMB := a.diskMB + b.diskMB
  , iops := a.iops + b.iops }

/-- The zero resource request (new structs.Resources). -/
def zeroRes : Resources := { cpu := 0, memoryMB := 0, diskMB := 0, iops := 0 }

/-- Constraint: a predicate description (attribute, operator, value)
from the data model; the scheduler code only aggregates constraints, so
its evaluation is left to the iterator oracle. -/
structure Constraint where
  lTarget : String
  operand : String
  rTarget : String
deriving DecidableEq

/-- Task: name, driver kind, resource requirement, constraints. -/
structure Task where
  name : String
  driver : String
  resources : Resources
  constraints : List Constraint
deriving DecidableEq

/-- TaskGroup: name, desired count, constraints, tasks. -/
structure TaskGroup where
  name : String
  count : Nat
  constraints : List Constraint
  tasks : List Task
deriving DecidableEq

/-- Job: identity, priority, datacenters, constraints, task groups. -/
structure Job where
  id : String
  priority : Int
  datacenters : List String
  constraints : List Constraint
  taskGroups : List TaskGroup
deriving DecidableEq

/-- Node: identity, datacenter, status (only the fields the scheduler
code reads). -/
structure Node where
  id : String
  datacenter : String
  status : String
deriving DecidableEq

/-- Allocation status for freshly planned allocations
(structs.AllocStatusPending). -/
def allocStatusPending : String := "pending"

/-- Node status used by baseNodes (structs.NodeStatusReady). -/
def nodeStatusReady : String := "ready"

/-- Evaluation trigger for job registration
(structs.EvalTriggerJobRegister). -/
def evalTriggerJobRegister : String := "job-register"

/-- Evaluation trigger for job deregistration
(structs.EvalTriggerJobDeregister). -/
def evalTriggerJobDeregister : String := "job-deregister"

/-- Evaluation trigger for node updates (structs.EvalTriggerNodeUpdate). -/
def evalTriggerNodeUpdate : String := "node-update"

/-- Allocation: identity, name, node binding, owning job id, embedded
job snapshot, aggregated resources and status, as constructed by
planAllocations. -/
structure Allocation where
  id : String
  name : String
  nodeID : String
  jobID : String
  job : Option Job
  resources : Resources
  metrics : Option Unit
  status : String
deriving DecidableEq

/-- Name/id pair used by the diff engine (allocNameID in the source). -/
structure allocNameID where
  name : String
  id : String
deriving DecidableEq

/-- Plan: the scheduler's proposed delta. The node-to-evictions mapping
is flattened into (nodeID, allocID) pairs in append order; the
node-to-created-allocations mapping is flattened likewise (each
Allocation carries its nodeID). -/
structure Plan where
  evalID : String
  priority : Int
  nodeEvict : List (String × String)
  nodeAllocation : List Allocation
deriving DecidableEq

/-- Evaluation: immutable input to Process. -/
structure Evaluation where
  id : String
  jobID : String
  priority : Int
  triggeredBy : String
deriving DecidableEq

/-- State snapshot interface: the three read functions the scheduler
consumes. Reads are fallible, mirroring the Go error returns. -/
structure State where
  getJobByID : String → Except String (Option Job)
  allocsByJob : String → Except String (List Allocation)
  nodesByDatacenterStatus : String → String → Except String (List Node)

/-- PlanResult: opaque result handed back by the planner; FullCommit
reports (fullyCommitted, expected, actual) for a plan. -/
structure PlanResult where
  fullCommit : Plan → Bool × Nat × Nat

/-- One planner response to a SubmitPlan call: either an error or a
result together with an optional new state snapshot. -/
inductive PlanResp where
  | err (msg : String)
  | ok (result : PlanResult) (newState : Option State)

/-- Outcome of processing one evaluation, with one constructor per
return site of the Go code so that error provenance is preserved. -/
inductive Outcome where
  | ok
  | failGetJob (msg : String)
  | failGetAllocs (msg : String)
  | failIterStack (msg : String)
  | failPlanAlloc (msg : String)
  | failSubmit (msg : String)
  | exhausted
  | unsupported (trigger : String)
  | outOfResponses
deriving DecidableEq

/-- Result of a handler run: the outcome, the trace of plans submitted
to the planner (in submission order), and a ghost counter of how many
iterations of the register try-commit loop executed. -/
structure RunResult where
  result : Outcome
  submitted : List Plan
  iters : Nat
deriving DecidableEq

/-- Oracle for the iterator stack's node selection: given the snapshot,
the job, the plan built so far, and the per-group parameters the source
feeds into the driver filter, the constraint filter and the bin-pack
iterator (drivers, constraints, resources), it returns the node chosen
by MaxScore, or none. -/
abbrev SelectFn :=
  State → Job → Plan → List String → List Constraint → Resources → Option Node

/-- Limit on the number of times the register handler will attempt to
schedule if it continues to hit conflicts (maxScheduleAttempts). -/
def maxScheduleAttempts : Nat := 5

/-- Modelled from the spec: materializeTaskGroups expands each TaskGroup
into `count` allocation names of the form jobID.group[i], each paired
with its group (the source returns a name-to-group map). -/
def allocName (jobID group : String) (i : Nat) : String :=
  jobID ++ "." ++ group ++ "[" ++ toString i ++ "]"

/-- Modelled from the spec: expansion of a job into its desired
allocation names (see allocName). -/
def materializeTaskGroups (job : Job) : List (String × TaskGroup) :=
  (job.taskGroups.map (fun tg =>
    (List.range tg.count).map (fun i => (allocName job.id tg.name i, tg)))).flatten

/-- Modelled from the spec: indexAllocs keys existing allocations by
allocation name; the latest allocation wins if duplicates occur. -/
def indexAllocs (allocs : List Allocation) : List (String × Allocation) :=
  allocs.foldl
    (fun acc a =>
      if acc.any (fun p => p.1 == a.name) then
        acc.map (fun p => if p.1 == a.name then (a.name, a) else p)
      else
        acc ++ [(a.name, a)])
    []

/-- Modelled from the spec: the structural-equivalence check separating
update from ignore compares the allocation's embedded group spec with
the current group spec, count excluded. -/
def eraseCount (g : TaskGroup) : TaskGroup := { g with count := 0 }

/-- Modelled from the spec: an indexed allocation is ignored iff its
embedded job still holds a group with this group's name whose spec
(count excluded) is unchanged. -/
def groupUnchanged (tg : TaskGroup) (a : Allocation) : Bool :=
  match a.job with
  | none => false
  | some oldJob =>
    match oldJob.taskGroups.find? (fun g => g.name == tg.name) with
    | none => false
    | some oldTg => eraseCount oldTg == eraseCount tg

/-- Result of the diff engine: the four disjoint name sets. -/
structure DiffResult where
  place : List allocNameID
  update : List allocNameID
  evict : List allocNameID
  ignore : List allocNameID
deriving DecidableEq

/-- Modelled from the spec: diffAllocs partitions names into place
(desired, not observed), update (observed but group spec changed),
ignore (observed and unchanged) and evict (observed, no longer
desired). -/
def diffAllocs (groups : List (String × TaskGroup))
    (indexed : List (String × Allocation)) : DiffResult :=
  { place := groups.filterMap (fun g =>
      match indexed.lookup g.1 with
      | none => some { name := g.1, id := "" }
      | some _ => none)
  , update := groups.filterMap (fun g =>
      match indexed.lookup g.1 with
      | none => none
      | some a => if groupUnchanged g.2 a then none else some { name := g.1, id := a.id })
  , evict := indexed.filterMap (fun p =>
      match groups.lookup p.1 with
      | none => some { name := p.1, id := p.2.id }
      | some _ => none)
  , ignore := groups.filterMap (fun g =>
      match indexed.lookup g.1 with
      | none => none
      | some a => if groupUnchanged g.2 a then some { name := g.1, id := a.id } else none) }

/-- Modelled from the spec: Plan.AppendEvict records the allocation's id
under its node in the node-to-evictions mapping. -/
def appendEvict (p : Plan) (a : Allocation) : Plan :=
  { p with nodeEvict := p.nodeEvict ++ [(a.nodeID, a.id)] }

/-- Modelled from the spec: Plan.AppendAlloc records a pending
allocation under its node in the node-to-created-allocations mapping. -/
def appendAlloc (p : Plan) (a : Allocation) : Plan :=
  { p with nodeAllocation := p.nodeAllocation ++ [a] }

/-- Modelled from the spec: Evaluation.MakePlan creates a fresh, empty
plan scoped to the eval for the given job. -/
def makePlan (eval : Evaluation) (job : Job) : Plan :=
  { evalID := eval.id, priority := job.priority, nodeEvict := [], nodeAllocation := [] }

/-- Modelled from the spec: addEvictsToPlan appends, for each name/id
entry, the indexed allocation of that name to the plan as an eviction. -/
def addEvictsToPlan (plan : Plan) (entries : List allocNameID)
    (indexed : List (String × Allocation)) : Plan :=
  entries.foldl
    (fun p e =>
      match indexed.lookup e.name with
      | some a => appendEvict p a
      | none => p)
    plan

/-- Group-level plus task-level constraints, aggregated in the order the
source's loop appends them. -/
def groupConstraints (tg : TaskGroup) : List Constraint :=
  tg.constraints ++ (tg.tasks.map Task.constraints).flatten

/-- The set of driver kinds required by a group, one per task
(de-duplicated, mirroring the source's map-as-set). -/
def taskDrivers (tasks : List Task) : List String :=
  tasks.foldl (fun ds t => if ds.contains t.driver then ds else ds ++ [t.driver]) []

/-- The group's resource request, summed over tasks. -/
def groupResources (tasks : List Task) : Resources :=
  tasks.foldl (fun r t => addRes r t.resources) zeroRes

/-- Loop body of planAllocations: for each missing name, look up its
group, aggregate constraints, drivers and resources, ask the selection
oracle for the best node; on success append a pending allocation (fresh
uuid, that name, the chosen node, the job snapshot, the aggregated
resources, status pending), otherwise log and skip. A name with no
group would dereference a nil pointer in the source; that is modelled
as an error. -/
def planAllocationsGo (sel : SelectFn) (uuid : Nat → String) (state : State)
    (job : Job) (groups : List (String × TaskGroup)) :
    Plan → Nat → List allocNameID → Except String Plan
  | plan, _, [] => .ok plan
  | plan, idx, missing :: rest =>
    match groups.lookup missing.name with
    | none => .error "nil task group"
    | some tg =>
      let constr := groupConstraints tg
      let drivers := taskDrivers tg.tasks
      let size := groupResources tg.tasks
      match sel state job plan drivers constr size with
      | none => planAllocationsGo sel uuid state job groups plan idx rest
      | some node =>
        let alloc : Allocation :=
          { id := uuid idx
          , name := missing.name
          , nodeID := node.id
          , jobID := job.id
          , job := some job
          , resources := size
          , metrics := none
          , status := allocStatusPending }
        planAllocationsGo sel uuid state job groups (appendAlloc plan alloc) (idx + 1) rest

/-- planAllocations: attempt to place each missing allocation,
accumulating pending allocations into the plan. -/
def planAllocations (sel : SelectFn) (uuid : Nat → String) (state : State)
    (job : Job) (plan : Plan) (place : List allocNameID)
    (groups : List (String × TaskGroup)) : Except String Plan :=
  planAllocationsGo sel uuid state job groups plan 0 place

/-- baseNodes: all ready nodes in the datacenters the job can use. -/
def baseNodes (state : State) (job : Job) : Except String (List Node) :=
  job.datacenters.foldlM
    (fun acc dc => do
      let ns ← state.nodesByDatacenterStatus dc nodeStatusReady
      pure (acc ++ ns))
    []

/-- The limit passed to the Limit iterator: 2, raised to the base-2
ceiling logarithm when there are n > 0 base nodes and that logarithm
exceeds 2. The source computes the logarithm as
int(math.Ceil(math.Log2(float64(n)))) through Go's float64 stdlib;
here it is idealized as the exact ceiling Nat.clog 2 n. The two agree
for every n up to 2^49 but not universally: at n = 2^49 + 1 the true
log2 exceeds 49 by about 2.6e-15, less than the half-spacing 2^-48 of
float64 near 49, so even a correctly rounded Log2 returns exactly 49.0
and the source computes 49 where the exact ceiling is 50. No theorem
in this file depends on the limit's value. -/
def iterLimit (nodes : List Node) : Nat :=
  let limit := 2
  if 0 < nodes.length then
    let logLimit := Nat.clog 2 nodes.length
    if logLimit > limit then logLimit else limit
  else
    limit

/-- The observable data of the assembled iterator stack: the base node
set and the Limit iterator's bound. The iterators themselves live
outside this repository and are represented by the selection oracle. -/
structure IterStackResult where
  baseNodes : List Node
  limit : Nat
deriving DecidableEq

/-- iterStack: gather the base nodes (propagating snapshot errors) and
compute the Limit iterator's bound. -/
def iterStack (state : State) (job : Job) : Except String IterStackResult :=
  match baseNodes state job with
  | .error e => .error e
  | .ok nodes => .ok { baseNodes := nodes, limit := iterLimit nodes }

/-- How one iteration of the register loop ends before the submit:
an early return, a delegation to the deregister handler, or a plan
ready to submit. -/
inductive IterExit where
  | done (o : Outcome)
  | delegate
  | submit (plan : Plan)

/-- The body of handleJobRegister up to (but excluding) SubmitPlan:
look up the job (missing job is a success), materialize the groups
(empty materialization delegates to evictJobAllocs), read and index the
existing allocations, diff, fast-pass on an empty diff, build the plan
with all evict and update entries as evictions, merge update into
place, build the iterator stack and plan the placements. -/
def registerPrepare (sel : SelectFn) (uuid : Nat → String)
    (eval : Evaluation) (state : State) : IterExit :=
  match state.getJobByID eval.jobID with
  | .error e => .done (.failGetJob e)
  | .ok none => .done .ok
  | .ok (some job) =>
    let groups := materializeTaskGroups job
    if groups.isEmpty then .delegate
    else
      match state.allocsByJob eval.jobID with
      | .error e => .done (.failGetAllocs e)
      | .ok allocs =>
        let indexed := indexAllocs allocs
        let d := diffAllocs groups indexed
        if d.place.isEmpty && d.update.isEmpty && d.evict.isEmpty then .done .ok
        else
          let plan := makePlan eval job
          let plan := addEvictsToPlan plan d.evict indexed
          let plan := addEvictsToPlan plan d.update indexed
          let place := d.place ++ d.update
          match iterStack state job with
          | .error e => .done (.failIterStack e)
          | .ok _stack =>
            match planAllocations sel uuid state job plan place groups with
            | .error e => .done (.failPlanAlloc e)
            | .ok plan2 => .submit plan2

/-- How one iteration of the deregister loop ends before the submit:
an early return or a plan ready to submit. -/
inductive EvictExit where
  | done (o : Outcome)
  | submit (plan : Plan)

/-- The body of evictJobAllocs up to (but excluding) SubmitPlan: read
all allocations of the job (a snapshot error is fatal, none is a
success), then build a plan carrying one eviction per allocation. -/
def evictPrepare (eval : Evaluation) (state : State) : EvictExit :=
  match state.allocsByJob eval.jobID with
  | .error e => .done (.failGetAllocs e)
  | .ok allocs =>
    if allocs.isEmpty then .done .ok
    else
      let plan0 : Plan :=
        { evalID := eval.id, priority := eval.priority
        , nodeEvict := [], nodeAllocation := [] }
      .submit (allocs.foldl appendEvict plan0)

/-- evictJobAllocs: prepare and submit the eviction plan; adopt a
refreshed snapshot and restart; a planner error is returned; a
committed submit (no refresh) is a success without inspecting the plan
result. The recursion consumes one planner response per submit. -/
def evictJobAllocsGo (eval : Evaluation) :
    List PlanResp → State → RunResult
  | [], state =>
    match evictPrepare eval state with
    | .done o => { result := o, submitted := [], iters := 0 }
    | .submit _ => { result := .outOfResponses, submitted := [], iters := 0 }
  | resp :: rest, state =>
    match evictPrepare eval state with
    | .done o => { result := o, submitted := [], iters := 0 }
    | .submit plan =>
      match resp with
      | .err m => { result := .failSubmit m, submitted := [plan], iters := 0 }
      | .ok _ (some st) =>
        let res := evictJobAllocsGo eval rest st
        { result := res.result, submitted := plan :: res.submitted, iters := 0 }
      | .ok _ none => { result := .ok, submitted := [plan], iters := 0 }

/-- The register try-commit loop: each recursive step consumes one unit
of the attempt budget (Go checks `attempts == maxScheduleAttempts` at
the top of the loop); a refresh adopts the new snapshot and restarts, a
partial commit restarts against the same snapshot, a full commit is a
success. The iters field counts executed loop bodies. -/
def handleJobRegisterGo (sel : SelectFn) (uuid : Nat → String)
    (eval : Evaluation) : Nat → State → List PlanResp → RunResult
  | 0, _, _ => { result := .exhausted, submitted := [], iters := 0 }
  | fuel + 1, state, resps =>
    match registerPrepare sel uuid eval state with
    | .done o => { result := o, submitted := [], iters := 1 }
    | .delegate =>
      let res := evictJobAllocsGo eval resps state
      { result := res.result, submitted := res.submitted, iters := 1 }
    | .submit plan =>
      match resps with
      | [] => { result := .outOfResponses, submitted := [], iters := 1 }
      | .err m :: _ => { result := .failSubmit m, submitted := [plan], iters := 1 }
      | .ok _ (some st) :: rest =>
        let res := handleJobRegisterGo sel uuid eval fuel st rest
        { result := res.result, submitted := plan :: res.submitted, iters := res.iters + 1 }
      | .ok r none :: rest =>
        if (r.fullCommit plan).1 then
          { result := .ok, submitted := [plan], iters := 1 }
        else
          let res := handleJobRegisterGo sel uuid eval fuel state rest
          { result := res.result, submitted := plan :: res.submitted, iters := res.iters + 1 }

/-- handleJobRegister: the register loop entered with the full attempt
budget. -/
def handleJobRegister (sel : SelectFn) (uuid : Nat → String)
    (eval : Evaluation) (state : State) (resps : List PlanResp) : RunResult :=
  handleJobRegisterGo sel uuid eval maxScheduleAttempts state resps

/-- handleNodeUpdate: a no-op placeholder returning success. -/
def handleNodeUpdate (_eval : Evaluation) : RunResult :=
  { result := .ok, submitted := [], iters := 0 }

/-- Process: route the evaluation by its trigger reason. -/
def Process (sel : SelectFn) (uuid : Nat → String) (eval : Evaluation)
    (state : State) (resps : List PlanResp) : RunResult :=
  if eval.triggeredBy == evalTriggerJobRegister then
    handleJobRegister sel uuid eval state resps
  else if eval.triggeredBy == evalTriggerJobDeregister then
    evictJobAllocsGo eval resps state
  else if eval.triggeredBy == evalTriggerNodeUpdate then
    handleNodeUpdate eval
  else
    { result := .unsupported eval.triggeredBy, submitted := [], iters := 0 }

/-! ## Concrete fixtures used by the witness theorems -/

/-- A ready node in datacenter dc1. -/
def wNode : Node := { id := "n1", datacenter := "dc1", status := "ready" }

/-- A single docker task. -/
def wTask : Task :=
  { name := "t", driver := "docker"
  , resources := { cpu := 100, memoryMB := 256, diskMB := 0, iops := 0 }
  , constraints := [] }

/-- A group of one instance of wTask. -/
def wGroup : TaskGroup := { name := "g", count := 1, constraints := [], tasks := [wTask] }

/-- A one-group job in dc1. -/
def wJob : Job :=
  { id := "job1", priority := 50, datacenters := ["dc1"], constraints := []
  , taskGroups := [wGroup] }

/-- A running allocation of wJob matching the current spec. -/
def wAlloc : Allocation :=
  { id := "a1", name := allocName "job1" "g" 0, nodeID := "n1", jobID := "job1"
  , job := some wJob, resources := wTask.resources, metrics := none, status := "running" }

/-- Snapshot where wJob exists and wAlloc is its only, up-to-date
allocation. -/
def wState : State :=
  { getJobByID := fun j => if j == "job1" then .ok (some wJob) else .ok none
  , allocsByJob := fun _ => .ok [wAlloc]
  , nodesByDatacenterStatus := fun _ _ => .ok [wNode] }

/-- Snapshot where wJob exists but has no allocations yet. -/
def wStateFresh : State :=
  { getJobByID := fun j => if j == "job1" then .ok (some wJob) else .ok none
  , allocsByJob := fun _ => .ok []
  , nodesByDatacenterStatus := fun _ _ => .ok [wNode] }

/-- Snapshot with no job at all. -/
def wStateNoJob : State :=
  { getJobByID := fun _ => .ok none
  , allocsByJob := fun _ => .ok [wAlloc]
  , nodesByDatacenterStatus := fun _ _ => .ok [wNode] }

/-- A register evaluation for wJob. -/
def wEvalR : Evaluation :=
  { id := "e1", jobID := "job1", priority := 50, triggeredBy := evalTriggerJobRegister }

/-- A deregister evaluation for wJob. -/
def wEvalD : Evaluation :=
  { id := "e2", jobID := "job1", priority := 50, triggeredBy := evalTriggerJobDeregister }

/-- Planner result reporting a full commit. -/
def wResTrue : PlanResult := { fullCommit := fun _ => (true, 1, 1) }

/-- Planner result reporting a partial commit. -/
def wResFalse : PlanResult := { fullCommit := fun _ => (false, 1, 0) }

/-- Selection oracle that always proposes wNode. -/
def wSel : SelectFn := fun _ _ _ _ _ _ => some wNode

/-- Deterministic uuid supply. -/
def wUuid : Nat → String := fun n => "uuid-" ++ toString n

/-- The plan the deregister handler submits: one eviction per existing
allocation, keyed by node, and no pending allocations. -/
def evictPlanOf (eval : Evaluation) (allocs : List Allocation) : Plan :=
  { evalID := eval.id, priority := eval.priority
  , nodeEvict := allocs.map (fun a => (a.nodeID, a.id))
  , nodeAllocation := [] }

/-- Whether an outcome is the register handler's failed-to-plan-allocations
error. -/
def isFailPlanAlloc (o : Outcome) : Bool :=
  match o with
  | .failPlanAlloc _ => true
  | _ => false

/-- The pending allocation the fixture run places. -/
def wPendAlloc : Allocation :=
  { id := wUuid 0, name := allocName "job1" "g" 0, nodeID := "n1", jobID := "job1"
  , job := some wJob
  , resources := { cpu := 100, memoryMB := 256, diskMB := 0, iops := 0 }
  , metrics := none, status := allocStatusPending }

/-- The plan the fixture register run submits from wStateFresh. -/
def wPlan1 : Plan :=
  { evalID := "e1", priority := 50, nodeEvict := [], nodeAllocation := [wPendAlloc] }

/-- Five planner responses that each refresh back to wStateFresh. -/
def wResps5 : List PlanResp := List.replicate 5 (.ok wResTrue (some wStateFresh))

/-- A job whose only group has count zero. -/
def wJobZero : Job := { wJob with taskGroups := [{ wGroup with count := 0 }] }

/-- The fixture task before a spec change (smaller resources). -/
def wTaskOld : Task :=
  { wTask with resources := { cpu := 50, memoryMB := 128, diskMB := 0, iops := 0 } }

/-- The fixture group before the spec change. -/
def wGroupOld : TaskGroup := { wGroup with tasks := [wTaskOld] }

/-- The fixture job before the spec change. -/
def wJobOld : Job := { wJob with taskGroups := [wGroupOld] }

/-- An allocation still embedding the outdated job snapshot; the diff
classifies it as an update. -/
def wAllocOld : Allocation := { wAlloc with job := some wJobOld }

/-- Snapshot where the job exists but materializes to nothing. -/
def wStateZero : State :=
  { getJobByID := fun _ => .ok (some wJobZero)
  , allocsByJob := fun _ => .ok [wAlloc]
  , nodesByDatacenterStatus := fun _ _ => .ok [wNode] }

/-! ## Helper lemmas -/

/-- Folding appendEvict over a list of allocations appends one
(nodeID, allocID) pair per allocation, in order. -/
theorem foldl_appendEvict (allocs : List Allocation) (p : Plan) :
    allocs.foldl appendEvict p
      = { p with nodeEvict := p.nodeEvict ++ allocs.map (fun a => (a.nodeID, a.id)) } := by
  induction allocs generalizing p with
  | nil => simp
  | cons a as ih => simp [appendEvict, ih]

/-- One unfolding of the deregister handler when the job has
allocations: the eviction plan is submitted against the next planner
response. -/
theorem evictJobAllocsGo_cons (eval : Evaluation) (st : State)
    (allocs : List Allocation) (resps : List PlanResp)
    (hallocs : st.allocsByJob eval.jobID = .ok allocs) (hne : allocs ≠ []) :
    evictJobAllocsGo eval resps st
      = match resps with
        | [] => { result := .outOfResponses, submitted := [], iters := 0 }
        | .err m :: _ =>
          { result := .failSubmit m, submitted := [evictPlanOf eval allocs], iters := 0 }
        | .ok _ (some st2) :: rest =>
          { result := (evictJobAllocsGo eval rest st2).result
          , submitted := evictPlanOf eval allocs :: (evictJobAllocsGo eval rest st2).submitted
          , iters := 0 }
        | .ok _ none :: _ =>
          { result := .ok, submitted := [evictPlanOf eval allocs], iters := 0 } := by
  have hne2 : allocs.isEmpty = false := by
    cases allocs with
    | nil => exact absurd rfl hne
    | cons a as => rfl
  have hprep : evictPrepare eval st = .submit (evictPlanOf eval allocs) := by
    unfold evictPrepare
    rw [hallocs]
    simp only [hne2, Bool.false_eq_true, if_false, foldl_appendEvict]
    simp [evictPlanOf]
  cases resps with
  | nil => simp [evictJobAllocsGo, hprep]
  | cons resp rest =>
    cases resp with
    | err m => simp [evictJobAllocsGo, hprep]
    | ok r ns =>
      cases ns with
      | some st2 => simp [evictJobAllocsGo, hprep]
      | none => simp [evictJobAllocsGo, hprep]

/-! ## Claim theorems -/

/-- C10: evictJobAllocs never inspects the PlanResult returned by
SubmitPlan: whenever the planner returns no error and no new state
snapshot, the deregister path returns success (submitting exactly the
eviction plan), for every possible PlanResult, including one reporting
a partial commit. -/
theorem evictJobAllocs_ignores_planResult (eval : Evaluation) (st : State)
    (allocs : List Allocation) (r : PlanResult) (rest : List PlanResp)
    (hallocs : st.allocsByJob eval.jobID = .ok allocs) (hne : allocs ≠ []) :
    evictJobAllocsGo eval (.ok r none :: rest) st
      = { result := .ok, submitted := [evictPlanOf eval allocs], iters := 0 } := by
  rw [evictJobAllocsGo_cons eval st allocs _ hallocs hne]

/-- Witness for C10: a planner response whose result reports a partial
commit still yields success on the deregister path. -/
theorem evictJobAllocs_ignores_planResult_witness :
    evictJobAllocsGo wEvalD [.ok wResFalse none] wState
      = { result := .ok, submitted := [evictPlanOf wEvalD [wAlloc]], iters := 0 } :=
  evictJobAllocs_ignores_planResult wEvalD wState [wAlloc] wResFalse [] rfl
    (by simp)

/-- C8: the deregister handler returns success without submitting any
plan when the job has no allocations; otherwise the plan it submits
carries exactly one eviction per existing allocation (keyed by node)
and no pending allocations; whenever the planner returns a new state
snapshot it adopts it and restarts; and the loop has no attempt bound:
for every k, a planner that refreshes k times and then commits yields
success after k+1 submissions. -/
theorem evictJobAllocs_behavior (eval : Evaluation) (stE st st2 : State)
    (allocs : List Allocation) (r r2 : PlanResult) (resps rest : List PlanResp)
    (k : Nat)
    (hE : stE.allocsByJob eval.jobID = .ok [])
    (hA : st.allocsByJob eval.jobID = .ok allocs)
    (hne : allocs ≠ []) :
    evictJobAllocsGo eval resps stE = { result := .ok, submitted := [], iters := 0 }
    ∧ evictJobAllocsGo eval (.ok r (some st2) :: rest) st
        = { result := (evictJobAllocsGo eval rest st2).result
          , submitted := evictPlanOf eval allocs :: (evictJobAllocsGo eval rest st2).submitted
          , iters := 0 }
    ∧ evictJobAllocsGo eval (List.replicate k (.ok r (some st)) ++ [.ok r2 none]) st
        = { result := .ok
          , submitted := List.replicate (k + 1) (evictPlanOf eval allocs)
          , iters := 0 } := by
  have hprepE : evictPrepare eval stE = .done .ok := by
    unfold evictPrepare
    rw [hE]
    rfl
  refine ⟨?_, ?_, ?_⟩
  · cases resps with
    | nil => simp [evictJobAllocsGo, hprepE]
    | cons resp rest2 => simp [evictJobAllocsGo, hprepE]
  · rw [evictJobAllocsGo_cons eval st allocs _ hA hne]
  · induction k with
    | zero =>
      rw [List.replicate_zero, List.nil_append,
        evictJobAllocsGo_cons eval st allocs _ hA hne]
      rfl
    | succ n ih =>
      rw [List.replicate_succ, List.cons_append,
        evictJobAllocsGo_cons eval st allocs _ hA hne]
      dsimp only
      rw [ih]
      simp [List.replicate_succ]

/-- Witness for C8: concrete deregister runs with zero allocations,
with one allocation and a refresh, and with two refreshes followed by a
commit. -/
theorem evictJobAllocs_behavior_witness :
    evictJobAllocsGo wEvalD [] wStateFresh = { result := .ok, submitted := [], iters := 0 }
    ∧ evictJobAllocsGo wEvalD [.ok wResTrue (some wState)] wState
        = { result := (evictJobAllocsGo wEvalD [] wState).result
          , submitted := evictPlanOf wEvalD [wAlloc] :: (evictJobAllocsGo wEvalD [] wState).submitted
          , iters := 0 }
    ∧ evictJobAllocsGo wEvalD (List.replicate 2 (.ok wResTrue (some wState)) ++ [.ok wResTrue none]) wState
        = { result := .ok
          , submitted := List.replicate 3 (evictPlanOf wEvalD [wAlloc])
          , iters := 0 } :=
  evictJobAllocs_behavior wEvalD wStateFresh wState wState [wAlloc] wResTrue wResTrue
    [] [] 2 rfl rfl (by simp)

/-- A job all of whose groups have count zero materializes to an empty
name set. -/
theorem materializeTaskGroups_eq_nil (job : Job)
    (hzero : ∀ g ∈ job.taskGroups, g.count = 0) :
    materializeTaskGroups job = [] := by
  unfold materializeTaskGroups
  rw [List.flatten_eq_nil_iff]
  intro l hl
  rw [List.mem_map] at hl
  obtain ⟨tg, htg, rfl⟩ := hl
  rw [hzero tg htg]
  rfl

/-- C6: registering a job whose materialization is empty (count zero in
every group) is the deregister path: the register handler delegates to
evictJobAllocs and produces its outcome and submissions for the same
snapshot and planner responses. -/
theorem registerZeroCount_eq_deregister (sel : SelectFn) (uuid : Nat → String)
    (eval : Evaluation) (state : State) (resps : List PlanResp) (job : Job)
    (hjob : state.getJobByID eval.jobID = .ok (some job))
    (hzero : ∀ g ∈ job.taskGroups, g.count = 0) :
    (handleJobRegister sel uuid eval state resps).result
        = (evictJobAllocsGo eval resps state).result
    ∧ (handleJobRegister sel uuid eval state resps).submitted
        = (evictJobAllocsGo eval resps state).submitted := by
  have hprep : registerPrepare sel uuid eval state = .delegate := by
    unfold registerPrepare
    rw [hjob]
    simp [materializeTaskGroups_eq_nil job hzero]
  have h5 : handleJobRegister sel uuid eval state resps
      = handleJobRegisterGo sel uuid eval (4 + 1) state resps := rfl
  rw [h5]
  simp [handleJobRegisterGo, hprep]

/-- Witness for C6: with a count-zero job, the register run and the
deregister run agree on outcome and submissions. -/
theorem registerZeroCount_eq_deregister_witness :
    (handleJobRegister wSel wUuid wEvalR wStateZero []).result
        = (evictJobAllocsGo wEvalR [] wStateZero).result
    ∧ (handleJobRegister wSel wUuid wEvalR wStateZero []).submitted
        = (evictJobAllocsGo wEvalR [] wStateZero).submitted :=
  registerZeroCount_eq_deregister wSel wUuid wEvalR wStateZero [] wJobZero rfl
    (by intro g hg; simp [wJobZero] at hg; subst hg; rfl)

/-- C5: the register handler returns success without submitting any
plan when the job is absent from the snapshot, and likewise when the
diff yields empty place, update and evict sets. -/
theorem register_success_paths (sel : SelectFn) (uuid : Nat → String)
    (eval : Evaluation) (st1 st2 : State) (resps1 resps2 : List PlanResp)
    (job : Job) (allocs : List Allocation) (ign : List allocNameID)
    (h1 : st1.getJobByID eval.jobID = .ok none)
    (h2 : st2.getJobByID eval.jobID = .ok (some job))
    (h3 : materializeTaskGroups job ≠ [])
    (h4 : st2.allocsByJob eval.jobID = .ok allocs)
    (h5 : diffAllocs (materializeTaskGroups job) (indexAllocs allocs)
        = { place := [], update := [], evict := [], ignore := ign }) :
    handleJobRegister sel uuid eval st1 resps1
        = { result := .ok, submitted := [], iters := 1 }
    ∧ handleJobRegister sel uuid eval st2 resps2
        = { result := .ok, submitted := [], iters := 1 } := by
  have hge : (materializeTaskGroups job).isEmpty = false := by
    cases hmg : materializeTaskGroups job with
    | nil => exact absurd hmg h3
    | cons a as => rfl
  have hprep1 : registerPrepare sel uuid eval st1 = .done .ok := by
    unfold registerPrepare
    rw [h1]
  have hprep2 : registerPrepare sel uuid eval st2 = .done .ok := by
    unfold registerPrepare
    rw [h2]
    simp only [hge, Bool.false_eq_true, if_false]
    rw [h4]
    simp only [h5]
    rfl
  constructor
  · have hu : handleJobRegister sel uuid eval st1 resps1
        = handleJobRegisterGo sel uuid eval (4 + 1) st1 resps1 := rfl
    rw [hu]
    simp [handleJobRegisterGo, hprep1]
  · have hu : handleJobRegister sel uuid eval st2 resps2
        = handleJobRegisterGo sel uuid eval (4 + 1) st2 resps2 := rfl
    rw [hu]
    simp [handleJobRegisterGo, hprep2]

/-- Witness for C5: a snapshot without the job, and a snapshot where
the existing allocation matches the spec (diff all-ignore), both
succeed with no submission. -/
theorem register_success_paths_witness :
    handleJobRegister wSel wUuid wEvalR wStateNoJob []
        = { result := .ok, submitted := [], iters := 1 }
    ∧ handleJobRegister wSel wUuid wEvalR wState []
        = { result := .ok, submitted := [], iters := 1 } :=
  register_success_paths wSel wUuid wEvalR wStateNoJob wState [] [] wJob [wAlloc]
    [{ name := allocName "job1" "g" 0, id := "a1" }] rfl rfl
    (by decide) rfl rfl

/-- C2: after an error-free SubmitPlan in the register loop, exactly
one of three things happens: a non-nil new snapshot is adopted and the
loop restarts against it; a partial commit restarts the loop against
the same snapshot; a full commit returns success. Neither a refresh
nor a partial commit surfaces as an error at this step. -/
theorem register_submit_outcomes (sel : SelectFn) (uuid : Nat → String)
    (eval : Evaluation) (state st2 : State) (fuel : Nat) (r : PlanResult)
    (rest : List PlanResp) (plan : Plan)
    (hprep : registerPrepare sel uuid eval state = .submit plan) :
    handleJobRegisterGo sel uuid eval (fuel + 1) state (.ok r (some st2) :: rest)
        = { result := (handleJobRegisterGo sel uuid eval fuel st2 rest).result
          , submitted := plan :: (handleJobRegisterGo sel uuid eval fuel st2 rest).submitted
          , iters := (handleJobRegisterGo sel uuid eval fuel st2 rest).iters + 1 }
    ∧ ((r.fullCommit plan).1 = true →
        handleJobRegisterGo sel uuid eval (fuel + 1) state (.ok r none :: rest)
          = { result := .ok, submitted := [plan], iters := 1 })
    ∧ ((r.fullCommit plan).1 = false →
        handleJobRegisterGo sel uuid eval (fuel + 1) state (.ok r none :: rest)
          = { result := (handleJobRegisterGo sel uuid eval fuel state rest).result
            , submitted := plan :: (handleJobRegisterGo sel uuid eval fuel state rest).submitted
            , iters := (handleJobRegisterGo sel uuid eval fuel state rest).iters + 1 }) := by
  refine ⟨?_, ?_, ?_⟩
  · simp [handleJobRegisterGo, hprep]
  · intro hfc
    simp [handleJobRegisterGo, hprep, hfc]
  · intro hfc
    simp [handleJobRegisterGo, hprep, hfc]

/-- Witness for C2: the fixture register run from wStateFresh submits
wPlan1; a refresh restarts, a full commit succeeds, a partial commit
restarts. -/
theorem register_submit_outcomes_witness :
    handleJobRegisterGo wSel wUuid wEvalR (4 + 1) wStateFresh
        (.ok wResTrue (some wStateFresh) :: [])
        = { result := (handleJobRegisterGo wSel wUuid wEvalR 4 wStateFresh []).result
          , submitted := wPlan1 :: (handleJobRegisterGo wSel wUuid wEvalR 4 wStateFresh []).submitted
          , iters := (handleJobRegisterGo wSel wUuid wEvalR 4 wStateFresh []).iters + 1 }
    ∧ ((wResTrue.fullCommit wPlan1).1 = true →
        handleJobRegisterGo wSel wUuid wEvalR (4 + 1) wStateFresh (.ok wResTrue none :: [])
          = { result := .ok, submitted := [wPlan1], iters := 1 })
    ∧ ((wResTrue.fullCommit wPlan1).1 = false →
        handleJobRegisterGo wSel wUuid wEvalR (4 + 1) wStateFresh (.ok wResTrue none :: [])
          = { result := (handleJobRegisterGo wSel wUuid wEvalR 4 wStateFresh []).result
            , submitted := wPlan1 :: (handleJobRegisterGo wSel wUuid wEvalR 4 wStateFresh []).submitted
            , iters := (handleJobRegisterGo wSel wUuid wEvalR 4 wStateFresh []).iters + 1 }) :=
  register_submit_outcomes wSel wUuid wEvalR wStateFresh wStateFresh 4 wResTrue [] wPlan1 rfl

/-- The register try-commit loop executes at most as many iterations as
its attempt budget, whatever the snapshot and the planner do. -/
theorem handleJobRegisterGo_iters_le (sel : SelectFn) (uuid : Nat → String)
    (eval : Evaluation) :
    ∀ fuel (state : State) (resps : List PlanResp),
      (handleJobRegisterGo sel uuid eval fuel state resps).iters ≤ fuel := by
  intro fuel
  induction fuel with
  | zero =>
    intro state resps
    simp [handleJobRegisterGo]
  | succ n ih =>
    intro state resps
    simp only [handleJobRegisterGo]
    cases hp : registerPrepare sel uuid eval state with
    | done o => simp
    | delegate => simp
    | submit plan =>
      cases resps with
      | nil => simp
      | cons resp rest =>
        cases resp with
        | err m => simp
        | ok r ns =>
          cases ns with
          | some st => simpa using Nat.succ_le_succ (ih st rest)
          | none =>
            by_cases hfc : (r.fullCommit plan).1
            · simp [hfc]
            · simpa [hfc] using Nat.succ_le_succ (ih state rest)

/-- If the planner refreshes back to the same submittable snapshot on
every response, the register loop burns its whole budget and reports
exhaustion. -/
theorem register_exhausts_aux (sel : SelectFn) (uuid : Nat → String)
    (eval : Evaluation) (state : State) (plan : Plan)
    (hprep : registerPrepare sel uuid eval state = .submit plan) :
    ∀ fuel (resps : List PlanResp),
      (∀ resp ∈ resps, ∃ r, resp = PlanResp.ok r (some state)) →
      fuel ≤ resps.length →
      (handleJobRegisterGo sel uuid eval fuel state resps).result = .exhausted := by
  intro fuel
  induction fuel with
  | zero =>
    intro resps hmem hlen
    simp [handleJobRegisterGo]
  | succ n ih =>
    intro resps hmem hlen
    cases resps with
    | nil => exact absurd hlen (by simp)
    | cons resp rest =>
      obtain ⟨r, rfl⟩ := hmem resp (List.mem_cons_self _ _)
      simp only [handleJobRegisterGo, hprep]
      exact ih rest (fun x hx => hmem x (List.mem_cons_of_mem _ hx))
        (Nat.le_of_succ_le_succ (by simpa using hlen))

/-- C1: the register try-commit loop runs at most maxScheduleAttempts
= 5 iterations; when the planner refreshes on every submit the budget
is exhausted and the handler returns the exhausted-attempts error
instead of looping further. -/
theorem handleJobRegister_bounded_attempts (sel : SelectFn) (uuid : Nat → String)
    (eval : Evaluation) (state : State) (resps : List PlanResp) (plan : Plan)
    (hprep : registerPrepare sel uuid eval state = .submit plan)
    (hres : ∀ resp ∈ resps, ∃ r, resp = PlanResp.ok r (some state))
    (hlen : maxScheduleAttempts ≤ resps.length) :
    (handleJobRegister sel uuid eval state resps).iters ≤ maxScheduleAttempts
    ∧ (handleJobRegister sel uuid eval state resps).result = .exhausted :=
  ⟨handleJobRegisterGo_iters_le sel uuid eval maxScheduleAttempts state resps,
   register_exhausts_aux sel uuid eval state plan hprep maxScheduleAttempts resps hres hlen⟩

/-- Witness for C1: five refreshes in a row exhaust the budget. -/
theorem handleJobRegister_bounded_attempts_witness :
    (handleJobRegister wSel wUuid wEvalR wStateFresh wResps5).iters ≤ maxScheduleAttempts
    ∧ (handleJobRegister wSel wUuid wEvalR wStateFresh wResps5).result = .exhausted :=
  handleJobRegister_bounded_attempts wSel wUuid wEvalR wStateFresh wResps5 wPlan1 rfl
    (fun resp h => ⟨wResTrue, List.eq_of_mem_replicate h⟩)
    (by simp [wResps5, maxScheduleAttempts])

/-- C4: for a place-set entry whose group is known, planAllocations
hands the selection pipeline the group's aggregated driver set (one
per task), the group-level plus task-level constraints and the
resource request summed over tasks; if a node comes back, a pending
allocation with the fresh id, that name, the chosen node's id, the
job snapshot, the aggregated resources and status pending is appended
to the plan; if none comes back, the entry is skipped without an
error. -/
theorem planAllocations_step (sel : SelectFn) (uuid : Nat → String)
    (state : State) (job : Job) (groups : List (String × TaskGroup))
    (plan : Plan) (idx : Nat) (missing : allocNameID)
    (rest : List allocNameID) (tg : TaskGroup)
    (hlook : groups.lookup missing.name = some tg) :
    (∀ node,
      sel state job plan (taskDrivers tg.tasks) (groupConstraints tg)
          (groupResources tg.tasks) = some node →
      planAllocationsGo sel uuid state job groups plan idx (missing :: rest)
        = planAllocationsGo sel uuid state job groups
            (appendAlloc plan
              { id := uuid idx
              , name := missing.name
              , nodeID := node.id
              , jobID := job.id
              , job := some job
              , resources := groupResources tg.tasks
              , metrics := none
              , status := allocStatusPending })
            (idx + 1) rest)
    ∧ (sel state job plan (taskDrivers tg.tasks) (groupConstraints tg)
          (groupResources tg.tasks) = none →
      planAllocationsGo sel uuid state job groups plan idx (missing :: rest)
        = planAllocationsGo sel uuid state job groups plan idx rest) := by
  constructor
  · intro node hsel
    simp [planAllocationsGo, hlook, hsel]
  · intro hsel
    simp [planAllocationsGo, hlook, hsel]

/-- Witness for C4: the fixture group aggregates to driver docker, no
constraints and the task's resources; wSel places on wNode, and a
never-selecting oracle skips. -/
theorem planAllocations_step_witness :
    (∀ node,
      wSel wStateFresh wJob (makePlan wEvalR wJob) (taskDrivers wGroup.tasks)
          (groupConstraints wGroup) (groupResources wGroup.tasks) = some node →
      planAllocationsGo wSel wUuid wStateFresh wJob [(allocName "job1" "g" 0, wGroup)]
          (makePlan wEvalR wJob) 0 [{ name := allocName "job1" "g" 0, id := "" }]
        = planAllocationsGo wSel wUuid wStateFresh wJob [(allocName "job1" "g" 0, wGroup)]
            (appendAlloc (makePlan wEvalR wJob)
              { id := wUuid 0
              , name := allocName "job1" "g" 0
              , nodeID := node.id
              , jobID := wJob.id
              , job := some wJob
              , resources := groupResources wGroup.tasks
              , metrics := none
              , status := allocStatusPending })
            (0 + 1) [])
    ∧ (wSel wStateFresh wJob (makePlan wEvalR wJob) (taskDrivers wGroup.tasks)
          (groupConstraints wGroup) (groupResources wGroup.tasks) = none →
      planAllocationsGo wSel wUuid wStateFresh wJob [(allocName "job1" "g" 0, wGroup)]
          (makePlan wEvalR wJob) 0 [{ name := allocName "job1" "g" 0, id := "" }]
        = planAllocationsGo wSel wUuid wStateFresh wJob [(allocName "job1" "g" 0, wGroup)]
            (makePlan wEvalR wJob) 0 []) :=
  planAllocations_step wSel wUuid wStateFresh wJob [(allocName "job1" "g" 0, wGroup)]
    (makePlan wEvalR wJob) 0 { name := allocName "job1" "g" 0, id := "" } [] wGroup rfl

/-- addEvictsToPlan appends, in order, one (nodeID, allocID) pair per
entry whose name resolves in the index, and nothing else. -/
theorem addEvictsToPlan_nodeEvict (entries : List allocNameID)
    (indexed : List (String × Allocation)) (p : Plan) :
    (addEvictsToPlan p entries indexed).nodeEvict
      = p.nodeEvict ++ entries.filterMap
          (fun e => (indexed.lookup e.name).map (fun a => (a.nodeID, a.id))) := by
  induction entries generalizing p with
  | nil => simp [addEvictsToPlan]
  | cons e es ih =>
    unfold addEvictsToPlan at ih ⊢
    simp only [List.foldl_cons, List.filterMap_cons]
    cases hlk : indexed.lookup e.name with
    | none =>
      simp only [hlk, Option.map_none]
      exact ih p
    | some a =>
      simp only [hlk, Option.map_some]
      rw [ih (appendEvict p a)]
      simp [appendEvict]

/-- Every update entry comes from an indexed allocation of the same
name whose group key is among the desired names. -/
theorem mem_diff_update (groups : List (String × TaskGroup))
    (indexed : List (String × Allocation)) (u : allocNameID)
    (hu : u ∈ (diffAllocs groups indexed).update) :
    (∃ a, indexed.lookup u.name = some a ∧ u.id = a.id)
    ∧ u.name ∈ groups.map Prod.fst := by
  simp only [diffAllocs] at hu
  rw [List.mem_filterMap] at hu
  obtain ⟨g, hg, hfg⟩ := hu
  cases hlk : indexed.lookup g.1 with
  | none => rw [hlk] at hfg; simp at hfg
  | some a =>
    rw [hlk] at hfg
    by_cases hc : groupUnchanged g.2 a
    · simp [hc] at hfg
    · simp only [hc, Bool.false_eq_true, if_false, Option.some.injEq] at hfg
      subst hfg
      exact ⟨⟨a, hlk, rfl⟩, List.mem_map.mpr ⟨g, hg, rfl⟩⟩

/-- Every place entry names a desired allocation that is absent from
the index. -/
theorem mem_diff_place (groups : List (String × TaskGroup))
    (indexed : List (String × Allocation)) (x : allocNameID)
    (hx : x ∈ (diffAllocs groups indexed).place) :
    indexed.lookup x.name = none ∧ x.name ∈ groups.map Prod.fst := by
  simp only [diffAllocs] at hx
  rw [List.mem_filterMap] at hx
  obtain ⟨g, hg, hfg⟩ := hx
  cases hlk : indexed.lookup g.1 with
  | none =>
    rw [hlk] at hfg
    simp only [Option.some.injEq] at hfg
    subst hfg
    exact ⟨hlk, List.mem_map.mpr ⟨g, hg, rfl⟩⟩
  | some a => rw [hlk] at hfg; simp at hfg

/-- Every evict entry names an observed allocation that is no longer
desired. -/
theorem mem_diff_evict (groups : List (String × TaskGroup))
    (indexed : List (String × Allocation)) (e : allocNameID)
    (he : e ∈ (diffAllocs groups indexed).evict) :
    groups.lookup e.name = none := by
  simp only [diffAllocs] at he
  rw [List.mem_filterMap] at he
  obtain ⟨q, hq, hfq⟩ := he
  cases hlk : groups.lookup q.1 with
  | none =>
    rw [hlk] at hfq
    simp only [Option.some.injEq] at hfq
    subst hfq
    exact hlk
  | some tg => rw [hlk] at hfq; simp at hfq

/-- A key occurring among an association list's keys has a successful
lookup. -/
theorem lookup_some_of_mem_keys {β : Type} (l : List (String × β)) (k : String)
    (hk : k ∈ l.map Prod.fst) : ∃ v, l.lookup k = some v := by
  induction l with
  | nil => simp at hk
  | cons g gs ih =>
    rw [List.map_cons, List.mem_cons] at hk
    by_cases he : k == g.1
    · exact ⟨g.2, by simp [List.lookup, he]⟩
    · cases hk with
      | inl h => exact absurd (by simp [h] : (k == g.1) = true) (by simpa using he)
      | inr h =>
        obtain ⟨v, hv⟩ := ih h
        exact ⟨v, by simp [List.lookup, he, hv]⟩

/-- The update names are a sublist of the desired names. -/
theorem update_names_sublist (groups : List (String × TaskGroup))
    (indexed : List (String × Allocation)) :
    ((diffAllocs groups indexed).update.map allocNameID.name).Sublist
      (groups.map Prod.fst) := by
  simp only [diffAllocs]
  induction groups with
  | nil => simp
  | cons g gs ih =>
    rw [List.filterMap_cons, List.map_cons]
    cases hlk : indexed.lookup g.1 with
    | none => exact ih.cons g.1
    | some a =>
      by_cases hc : groupUnchanged g.2 a
      · simp only [hc, if_true]
        exact ih.cons g.1
      · simp only [hc, Bool.false_eq_true, if_false, List.map_cons]
        exact ih.cons₂ g.1

/-- In a list of name/id entries with pairwise distinct names, a member
is counted exactly once by its name. -/
theorem countP_name_eq_one (l : List allocNameID) (u : allocNameID)
    (hnd : (l.map allocNameID.name).Nodup) (hu : u ∈ l) :
    l.countP (fun e => e.name == u.name) = 1 := by
  induction l with
  | nil => simp at hu
  | cons e es ih =>
    rw [List.map_cons, List.nodup_cons] at hnd
    rw [List.countP_cons]
    rw [List.mem_cons] at hu
    cases hu with
    | inl h =>
      subst h
      have hzero : es.countP (fun e2 => e2.name == u.name) = 0 := by
        rw [List.countP_eq_zero]
        intro x hx hbeq
        exact hnd.1 (List.mem_map.mpr ⟨x, hx, by simpa using hbeq⟩)
      simp [hzero]
    | inr h =>
      have hne : (e.name == u.name) = false := by
        by_contra hcon
        have heq : e.name = u.name := by
          simpa using (Bool.not_eq_false _).mp hcon
        exact hnd.1 (heq ▸ List.mem_map.mpr ⟨u, h, rfl⟩)
      rw [ih hnd.2 h, hne]
      simp

/-- C3: every name in the update set is appended to the plan as an
eviction together with the evict set (the plan's eviction list is
exactly the evict entries followed by the update entries, one entry
per name), and is merged into the place set so that it gets exactly
one placement attempt. -/
theorem updates_evicted_and_placed (eval : Evaluation) (job : Job)
    (groups : List (String × TaskGroup)) (indexed : List (String × Allocation))
    (d : DiffResult)
    (hnodup : (groups.map Prod.fst).Nodup)
    (hd : diffAllocs groups indexed = d) :
    (addEvictsToPlan (addEvictsToPlan (makePlan eval job) d.evict indexed)
        d.update indexed).nodeEvict
      = (d.evict ++ d.update).filterMap
          (fun e => (indexed.lookup e.name).map (fun a => (a.nodeID, a.id)))
    ∧ ∀ u ∈ d.update,
        (∃ a, indexed.lookup u.name = some a)
        ∧ (d.evict ++ d.update).countP (fun e => e.name == u.name) = 1
        ∧ (d.place ++ d.update).countP (fun e => e.name == u.name) = 1 := by
  subst hd
  constructor
  · rw [addEvictsToPlan_nodeEvict, addEvictsToPlan_nodeEvict]
    simp [makePlan, List.filterMap_append]
  · intro u hu
    obtain ⟨⟨a, hlk, _⟩, hkey⟩ := mem_diff_update groups indexed u hu
    have hnd : ((diffAllocs groups indexed).update.map allocNameID.name).Nodup :=
      (update_names_sublist groups indexed).nodup hnodup
    have hone : (diffAllocs groups indexed).update.countP
        (fun e => e.name == u.name) = 1 :=
      countP_name_eq_one _ u hnd hu
    obtain ⟨tg, htg⟩ := lookup_some_of_mem_keys groups u.name hkey
    have hevict : (diffAllocs groups indexed).evict.countP
        (fun e => e.name == u.name) = 0 := by
      rw [List.countP_eq_zero]
      intro e he hbeq
      have hname : e.name = u.name := by simpa using hbeq
      have := mem_diff_evict groups indexed e he
      rw [hname, htg] at this
      exact Option.noConfusion this
    have hplace : (diffAllocs groups indexed).place.countP
        (fun e => e.name == u.name) = 0 := by
      rw [List.countP_eq_zero]
      intro x hx hbeq
      have hname : x.name = u.name := by simpa using hbeq
      have := (mem_diff_place groups indexed x hx).1
      rw [hname, hlk] at this
      exact Option.noConfusion this
    refine ⟨⟨a, hlk⟩, ?_, ?_⟩
    · rw [List.countP_append, hevict, hone]
    · rw [List.countP_append, hplace, hone]

/-- Witness for C3: a changed task spec turns the existing allocation
into an update; it appears once as an eviction and once in the merged
place set. -/
theorem updates_evicted_and_placed_witness :
    (addEvictsToPlan
        (addEvictsToPlan (makePlan wEvalR wJob)
          (DiffResult.evict { place := [], update := [{ name := allocName "job1" "g" 0, id := "a1" }], evict := [], ignore := [] })
          (indexAllocs [wAllocOld]))
        (DiffResult.update { place := [], update := [{ name := allocName "job1" "g" 0, id := "a1" }], evict := [], ignore := [] })
        (indexAllocs [wAllocOld])).nodeEvict
      = ((DiffResult.evict { place := [], update := [{ name := allocName "job1" "g" 0, id := "a1" }], evict := [], ignore := [] })
          ++ (DiffResult.update { place := [], update := [{ name := allocName "job1" "g" 0, id := "a1" }], evict := [], ignore := [] })).filterMap
          (fun e => ((indexAllocs [wAllocOld]).lookup e.name).map (fun a => (a.nodeID, a.id)))
    ∧ ∀ u ∈ DiffResult.update { place := [], update := [{ name := allocName "job1" "g" 0, id := "a1" }], evict := [], ignore := [] },
        (∃ a, (indexAllocs [wAllocOld]).lookup u.name = some a)
        ∧ ((DiffResult.evict { place := [], update := [{ name := allocName "job1" "g" 0, id := "a1" }], evict := [], ignore := [] })
            ++ (DiffResult.update { place := [], update := [{ name := allocName "job1" "g" 0, id := "a1" }], evict := [], ignore := [] })).countP
            (fun e => e.name == u.name) = 1
        ∧ ((DiffResult.place { place := [], update := [{ name := allocName "job1" "g" 0, id := "a1" }], evict := [], ignore := [] })
            ++ (DiffResult.update { place := [], update := [{ name := allocName "job1" "g" 0, id := "a1" }], evict := [], ignore := [] })).countP
            (fun e => e.name == u.name) = 1 :=
  updates_evicted_and_placed wEvalR wJob (materializeTaskGroups wJob)
    (indexAllocs [wAllocOld])
    { place := [], update := [{ name := allocName "job1" "g" 0, id := "a1" }], evict := [], ignore := [] }
    (by decide) rfl

/-- If every name in the work list has a group, planAllocations cannot
fail: placement misses are skipped, not errors. -/
theorem planAllocationsGo_isOk (sel : SelectFn) (uuid : Nat → String)
    (state : State) (job : Job) (groups : List (String × TaskGroup)) :
    ∀ (placeL : List allocNameID) (plan : Plan) (idx : Nat),
      (∀ x ∈ placeL, ∃ tg, groups.lookup x.name = some tg) →
      ∃ p, planAllocationsGo sel uuid state job groups plan idx placeL = .ok p := by
  intro placeL
  induction placeL with
  | nil =>
    intro plan idx hmem
    exact ⟨plan, rfl⟩
  | cons missing rest ih =>
    intro plan idx hmem
    obtain ⟨tg, htg⟩ := hmem missing (List.mem_cons_self _ _)
    simp only [planAllocationsGo, htg]
    cases hsel : sel state job plan (taskDrivers tg.tasks) (groupConstraints tg)
        (groupResources tg.tasks) with
    | none =>
      simp only [hsel]
      exact ih plan idx (fun x hx => hmem x (List.mem_cons_of_mem _ hx))
    | some node =>
      simp only [hsel]
      exact ih _ _ (fun x hx => hmem x (List.mem_cons_of_mem _ hx))

/-- Every name in the merged place set resolves to a group: place and
update names both come from the desired set. -/
theorem diff_place_update_lookup (groups : List (String × TaskGroup))
    (indexed : List (String × Allocation)) (x : allocNameID)
    (hx : x ∈ (diffAllocs groups indexed).place ++ (diffAllocs groups indexed).update) :
    ∃ tg, groups.lookup x.name = some tg := by
  rw [List.mem_append] at hx
  cases hx with
  | inl h =>
    exact lookup_some_of_mem_keys groups x.name (mem_diff_place groups indexed x h).2
  | inr h =>
    exact lookup_some_of_mem_keys groups x.name (mem_diff_update groups indexed x h).2

/-- Exhaustive case analysis of the register loop body: its early
exits are the snapshot errors, the two success fast-passes, the
delegation, or a submit; failed-to-plan-allocations never occurs
because every merged place name resolves to a group. -/
theorem registerPrepare_cases (sel : SelectFn) (uuid : Nat → String)
    (eval : Evaluation) (state : State) :
    (∃ e, registerPrepare sel uuid eval state = .done (.failGetJob e))
    ∨ registerPrepare sel uuid eval state = .done .ok
    ∨ registerPrepare sel uuid eval state = .delegate
    ∨ (∃ e, registerPrepare sel uuid eval state = .done (.failGetAllocs e))
    ∨ (∃ e, registerPrepare sel uuid eval state = .done (.failIterStack e))
    ∨ (∃ p, registerPrepare sel uuid eval state = .submit p) := by
  cases hjob : state.getJobByID eval.jobID with
  | error e => exact Or.inl ⟨e, by simp [registerPrepare, hjob]⟩
  | ok jopt =>
    cases jopt with
    | none => exact Or.inr (Or.inl (by simp [registerPrepare, hjob]))
    | some job =>
      by_cases hg : (materializeTaskGroups job).isEmpty = true
      · exact Or.inr (Or.inr (Or.inl (by simp [registerPrepare, hjob, hg])))
      · cases hallocs : state.allocsByJob eval.jobID with
        | error e =>
          exact Or.inr (Or.inr (Or.inr (Or.inl
            ⟨e, by simp [registerPrepare, hjob, hg, hallocs]⟩)))
        | ok allocs =>
          by_cases hdiff :
              ((diffAllocs (materializeTaskGroups job) (indexAllocs allocs)).place.isEmpty
                && (diffAllocs (materializeTaskGroups job) (indexAllocs allocs)).update.isEmpty
                && (diffAllocs (materializeTaskGroups job) (indexAllocs allocs)).evict.isEmpty)
                = true
          · exact Or.inr (Or.inl (by simp [registerPrepare, hjob, hg, hallocs, hdiff]))
          · cases hstack : iterStack state job with
            | error e =>
              exact Or.inr (Or.inr (Or.inr (Or.inr (Or.inl
                ⟨e, by simp [registerPrepare, hjob, hg, hallocs, hdiff, hstack]⟩))))
            | ok stack =>
              obtain ⟨p, hp⟩ := planAllocationsGo_isOk sel uuid state job
                (materializeTaskGroups job)
                ((diffAllocs (materializeTaskGroups job) (indexAllocs allocs)).place
                  ++ (diffAllocs (materializeTaskGroups job) (indexAllocs allocs)).update)
                (addEvictsToPlan
                  (addEvictsToPlan (makePlan eval job)
                    (diffAllocs (materializeTaskGroups job) (indexAllocs allocs)).evict
                    (indexAllocs allocs))
                  (diffAllocs (materializeTaskGroups job) (indexAllocs allocs)).update
                  (indexAllocs allocs))
                0
                (fun x hx => diff_place_update_lookup (materializeTaskGroups job)
                  (indexAllocs allocs) x hx)
              exact Or.inr (Or.inr (Or.inr (Or.inr (Or.inr
                ⟨p, by
                  simp only [registerPrepare, planAllocations, hjob, hg, hallocs,
                    hdiff, hstack, Bool.false_eq_true, if_false]
                  simp [hp]⟩))))

/-- The register loop body never exits early with the
failed-to-plan-allocations error. -/
theorem registerPrepare_no_failPlanAlloc (sel : SelectFn) (uuid : Nat → String)
    (eval : Evaluation) (state : State) (o : Outcome)
    (ho : registerPrepare sel uuid eval state = .done o) :
    isFailPlanAlloc o = false := by
  rcases registerPrepare_cases sel uuid eval state with
    ⟨e, h⟩ | h | h | ⟨e, h⟩ | ⟨e, h⟩ | ⟨p, h⟩ <;>
    rw [h] at ho <;>
    first
      | (injection ho with h2; subst h2; rfl)
      | injection ho

/-- The deregister loop body never produces the
failed-to-plan-allocations error. -/
theorem evictPrepare_no_failPlanAlloc (eval : Evaluation) (state : State)
    (o : Outcome) (ho : evictPrepare eval state = .done o) :
    isFailPlanAlloc o = false := by
  unfold evictPrepare at ho
  split at ho
  · injection ho with h
    subst h
    rfl
  · split at ho
    · injection ho with h
      subst h
      rfl
    · exact absurd ho (by simp)

/-- No deregister run ever reports the failed-to-plan-allocations
error. -/
theorem evictGo_no_failPlanAlloc (eval : Evaluation) :
    ∀ (resps : List PlanResp) (state : State),
      isFailPlanAlloc (evictJobAllocsGo eval resps state).result = false := by
  intro resps
  induction resps with
  | nil =>
    intro state
    simp only [evictJobAllocsGo]
    cases hp : evictPrepare eval state with
    | done o => exact evictPrepare_no_failPlanAlloc eval state o hp
    | submit plan => rfl
  | cons resp rest ih =>
    intro state
    simp only [evictJobAllocsGo]
    cases hp : evictPrepare eval state with
    | done o => exact evictPrepare_no_failPlanAlloc eval state o hp
    | submit plan =>
      cases resp with
      | err m => rfl
      | ok r ns =>
        cases ns with
        | some st => exact ih st
        | none => rfl

/-- No register run ever reports the failed-to-plan-allocations
error, whatever the attempt budget, snapshot and planner trace. -/
theorem registerGo_no_failPlanAlloc (sel : SelectFn) (uuid : Nat → String)
    (eval : Evaluation) :
    ∀ (fuel : Nat) (state : State) (resps : List PlanResp),
      isFailPlanAlloc (handleJobRegisterGo sel uuid eval fuel state resps).result
        = false := by
  intro fuel
  induction fuel with
  | zero =>
    intro state resps
    simp [handleJobRegisterGo, isFailPlanAlloc]
  | succ n ih =>
    intro state resps
    simp only [handleJobRegisterGo]
    cases hp : registerPrepare sel uuid eval state with
    | done o => exact registerPrepare_no_failPlanAlloc sel uuid eval state o hp
    | delegate => exact evictGo_no_failPlanAlloc eval resps state
    | submit plan =>
      cases resps with
      | nil => rfl
      | cons resp rest =>
        cases resp with
        | err m => rfl
        | ok r ns =>
          cases ns with
          | some st => exact ih st rest
          | none =>
            by_cases hfc : (r.fullCommit plan).1
            · simp [hfc, isFailPlanAlloc]
            · simp only [hfc, Bool.false_eq_true, if_false]
              exact ih state rest

/-- C9: planAllocations never fails (placement misses only skip), so
the failed-to-plan-allocations error branch is unreachable: no
placement outcome can make Process report that error. -/
theorem process_never_failPlanAlloc (sel : SelectFn) (uuid : Nat → String)
    (eval : Evaluation) (state : State) (resps : List PlanResp) :
    isFailPlanAlloc (Process sel uuid eval state resps).result = false := by
  unfold Process handleJobRegister
  by_cases h1 : (eval.triggeredBy == evalTriggerJobRegister) = true
  · simp only [h1, if_true]
    exact registerGo_no_failPlanAlloc sel uuid eval maxScheduleAttempts state resps
  · simp only [h1, Bool.false_eq_true, if_false]
    by_cases h2 : (eval.triggeredBy == evalTriggerJobDeregister) = true
    · simp only [h2, if_true]
      exact evictGo_no_failPlanAlloc eval resps state
    · simp only [h2, Bool.false_eq_true, if_false]
      by_cases h3 : (eval.triggeredBy == evalTriggerNodeUpdate) = true
      · simp [h3, handleNodeUpdate, isFailPlanAlloc]
      · simp [h3, isFailPlanAlloc]

end NomadSched
